import Mathlib

/-
Verification of the TCP repository's framing, rate-limiting, buffering and
lifecycle components, shallowly embedded from src/tcp_utils.cpp,
src/tcp_client.cpp, src/tcp_server.cpp and src/tcp_socket.cpp.

Bytes (uint8_t) are modelled as Nat; every byte producer in this file yields
values < 256.  Machine-integer casts are rendered with explicit `% 2 ^ w`,
shifts and masks with division and remainder (`x >> k` is `x / 2 ^ k`,
`x & 0xFF` is `x % 256`), and bitwise-or of byte lanes that occupy disjoint
bit ranges with addition, exactly as the unsigned C++ arithmetic computes.
-/

namespace Tcp

set_option maxRecDepth 10000

/-- Bytes are uint8_t in the source; modelled as Nat with values < 256. -/
abbrev Byte := Nat

/-- LengthType enum from tcp_utils.h, selecting the width of the length field
of LengthPrefixedFramer. -/
inductive LengthType where
  | UInt8
  | UInt16
  | UInt32
  | UInt64
deriving DecidableEq

/-- LengthPrefixedFramer::getLengthSize (tcp_utils.cpp lines 75-83). -/
def getLengthSize : LengthType → Nat
  | LengthType.UInt8 => 1
  | LengthType.UInt16 => 2
  | LengthType.UInt32 => 4
  | LengthType.UInt64 => 8

/-- LengthPrefixedFramer::writeLength (tcp_utils.cpp lines 85-131): the bytes
pushed onto the output for a given payload length.  The cast of `length` to
uintN is `% 2 ^ N`; `(len >> k) & 0xFF` is `len / 2 ^ k % 256`. -/
def writeLength : LengthType → Bool → Nat → List Byte
  | LengthType.UInt8, _, len => [len % 256]
  | LengthType.UInt16, be, len =>
      let l := len % 2 ^ 16
      if be then [l / 2 ^ 8 % 256, l % 256]
      else [l % 256, l / 2 ^ 8 % 256]
  | LengthType.UInt32, be, len =>
      let l := len % 2 ^ 32
      if be then [l / 2 ^ 24 % 256, l / 2 ^ 16 % 256, l / 2 ^ 8 % 256, l % 256]
      else [l % 256, l / 2 ^ 8 % 256, l / 2 ^ 16 % 256, l / 2 ^ 24 % 256]
  | LengthType.UInt64, be, len =>
      let l := len % 2 ^ 64
      if be then
        [l / 2 ^ 56 % 256, l / 2 ^ 48 % 256, l / 2 ^ 40 % 256, l / 2 ^ 32 % 256,
         l / 2 ^ 24 % 256, l / 2 ^ 16 % 256, l / 2 ^ 8 % 256, l % 256]
      else
        [l % 256, l / 2 ^ 8 % 256, l / 2 ^ 16 % 256, l / 2 ^ 24 % 256,
         l / 2 ^ 32 % 256, l / 2 ^ 40 % 256, l / 2 ^ 48 % 256, l / 2 ^ 56 % 256]

/-- Indexing `data[i]` on a byte vector, with the out-of-range default 0 (the
source only indexes in bounds, guarded by the size checks). -/
def byteAt (data : List Byte) (i : Nat) : Byte := data.getD i 0

/-- LengthPrefixedFramer::readLength (tcp_utils.cpp lines 133-173): decodes
the length field at `offset`.  The C++ or-of-shifted-uint8 lanes is rendered
as a sum of the byte values scaled by their lane, which is what the unsigned
arithmetic computes since each byte is < 256. -/
def readLength : LengthType → Bool → List Byte → Nat → Nat
  | LengthType.UInt8, _, d, o => byteAt d o
  | LengthType.UInt16, be, d, o =>
      if be then byteAt d o * 2 ^ 8 + byteAt d (o + 1)
      else byteAt d o + byteAt d (o + 1) * 2 ^ 8
  | LengthType.UInt32, be, d, o =>
      if be then
        byteAt d o * 2 ^ 24 + byteAt d (o + 1) * 2 ^ 16 +
          byteAt d (o + 2) * 2 ^ 8 + byteAt d (o + 3)
      else
        byteAt d o + byteAt d (o + 1) * 2 ^ 8 +
          byteAt d (o + 2) * 2 ^ 16 + byteAt d (o + 3) * 2 ^ 24
  | LengthType.UInt64, be, d, o =>
      if be then
        byteAt d o * 2 ^ 56 + byteAt d (o + 1) * 2 ^ 48 +
          byteAt d (o + 2) * 2 ^ 40 + byteAt d (o + 3) * 2 ^ 32 +
          byteAt d (o + 4) * 2 ^ 24 + byteAt d (o + 5) * 2 ^ 16 +
          byteAt d (o + 6) * 2 ^ 8 + byteAt d (o + 7)
      else
        byteAt d o + byteAt d (o + 1) * 2 ^ 8 +
          byteAt d (o + 2) * 2 ^ 16 + byteAt d (o + 3) * 2 ^ 24 +
          byteAt d (o + 4) * 2 ^ 32 + byteAt d (o + 5) * 2 ^ 40 +
          byteAt d (o + 6) * 2 ^ 48 + byteAt d (o + 7) * 2 ^ 56

/-- LengthPrefixedFramer state (tcp_utils.h): the configuration plus the
accumulation buffer, the parsed-but-unsatisfied length, and whether a length
header has been consumed. -/
structure LengthPrefixedFramer where
  lengthType : LengthType
  bigEndian : Bool
  buffer : List Byte
  expectedLength : Nat
  lengthReceived : Bool
deriving DecidableEq

/-- LengthPrefixedFramer constructor (tcp_utils.cpp lines 14-16). -/
def LengthPrefixedFramer.init (lt : LengthType) (be : Bool) : LengthPrefixedFramer :=
  { lengthType := lt, bigEndian := be, buffer := [], expectedLength := 0,
    lengthReceived := false }

/-- LengthPrefixedFramer::frame (tcp_utils.cpp lines 18-29): length header
followed by the payload. -/
def LengthPrefixedFramer.frame (f : LengthPrefixedFramer) (data : List Byte) : List Byte :=
  writeLength f.lengthType f.bigEndian data.length ++ data

/-- While loop of LengthPrefixedFramer::unframe (tcp_utils.cpp lines 35-55),
acting on (buffer, expectedLength, lengthReceived) and returning the emitted
messages together with the final state.  One iteration runs only while the
buffer holds at least getLengthSize bytes; if no header is pending it parses
and consumes one, and in the same iteration emits the message if the declared
payload is fully buffered, otherwise it breaks. -/
def unframeLoop (lt : LengthType) (be : Bool) (buffer : List Byte)
    (expectedLength : Nat) (lengthReceived : Bool) :
    List (List Byte) × List Byte × Nat × Bool :=
  if h1 : getLengthSize lt ≤ buffer.length then
    if hrec : lengthReceived then
      if h2 : expectedLength ≤ buffer.length then
        let r := unframeLoop lt be (buffer.drop expectedLength) 0 false
        (buffer.take expectedLength :: r.1, r.2)
      else ([], buffer, expectedLength, lengthReceived)
    else
      let e := readLength lt be buffer 0
      if h2 : e ≤ (buffer.drop (getLengthSize lt)).length then
        let r := unframeLoop lt be ((buffer.drop (getLengthSize lt)).drop e) 0 false
        ((buffer.drop (getLengthSize lt)).take e :: r.1, r.2)
      else ([], buffer.drop (getLengthSize lt), e, true)
  else ([], buffer, expectedLength, lengthReceived)
termination_by 2 * buffer.length + (if lengthReceived then 1 else 0)
decreasing_by
  all_goals have hsz : 1 ≤ getLengthSize lt := by cases lt <;> decide
  all_goals simp_all [List.length_drop]
  all_goals omega

/-- LengthPrefixedFramer::unframe (tcp_utils.cpp lines 31-58): appends the new
data to the accumulation buffer and runs the emission loop. -/
def LengthPrefixedFramer.unframe (f : LengthPrefixedFramer) (data : List Byte) :
    List (List Byte) × LengthPrefixedFramer :=
  match unframeLoop f.lengthType f.bigEndian (f.buffer ++ data)
      f.expectedLength f.lengthReceived with
  | (msgs, buf, e, rcvd) =>
      (msgs, { f with buffer := buf, expectedLength := e, lengthReceived := rcvd })

/-- Scan loop of DelimiterFramer::findDelimiter (tcp_utils.cpp lines 221-225):
first index i ≥ startPos at which the delimiter matches, none otherwise. -/
def findDelimiterAux (d buf : List Byte) (i : Nat) : Option Nat :=
  if h : i + d.length ≤ buf.length then
    if d.isPrefixOf (buf.drop i) then some i
    else findDelimiterAux d buf (i + 1)
  else none
termination_by buf.length + 1 - i

/-- DelimiterFramer::findDelimiter (tcp_utils.cpp lines 216-228): npos is
rendered as none; an empty delimiter or a buffer shorter than the delimiter
yields none. -/
def findDelimiter (d buf : List Byte) (startPos : Nat) : Option Nat :=
  if d = [] ∨ buf.length < d.length then none
  else findDelimiterAux d buf startPos

/-- DelimiterFramer state (tcp_utils.h): the configured delimiter bytes, the
includeDelimiter flag and the accumulation buffer. -/
structure DelimiterFramer where
  delimiter : List Byte
  includeDelimiter : Bool
  buffer : List Byte
deriving DecidableEq

/-- DelimiterFramer constructor (tcp_utils.cpp lines 176-182). -/
def DelimiterFramer.init (d : List Byte) (inc : Bool) : DelimiterFramer :=
  { delimiter := d, includeDelimiter := inc, buffer := [] }

/-- DelimiterFramer::frame (tcp_utils.cpp lines 184-188): payload followed by
the delimiter. -/
def DelimiterFramer.frame (f : DelimiterFramer) (data : List Byte) : List Byte :=
  data ++ f.delimiter

/-- While loop of DelimiterFramer::unframe (tcp_utils.cpp lines 194-203): each
found delimiter occurrence terminates one message (optionally keeping the
delimiter), the consumed span is erased, and the scan restarts at 0. -/
def delimUnframeLoop (d : List Byte) (inc : Bool) (buffer : List Byte) :
    List (List Byte) × List Byte :=
  match hfd : findDelimiter d buffer 0 with
  | none => ([], buffer)
  | some pos =>
      let message := buffer.take pos ++ (if inc then d else [])
      let r := delimUnframeLoop d inc (buffer.drop (pos + d.length))
      (message :: r.1, r.2)
termination_by buffer.length
decreasing_by
  simp only [findDelimiter] at hfd
  split at hfd
  · exact absurd hfd (by simp)
  · rename_i hcond
    have hd : ¬ (d = []) ∧ ¬ (buffer.length < d.length) := by
      constructor <;> intro hx <;> exact hcond (by simp [hx])
    have hlen : 1 ≤ d.length := by
      rcases d with _ | _
      · exact absurd rfl hd.1
      · simp
    simp only [List.length_drop]
    omega

/-- DelimiterFramer::unframe (tcp_utils.cpp lines 190-206). -/
def DelimiterFramer.unframe (f : DelimiterFramer) (data : List Byte) :
    List (List Byte) × DelimiterFramer :=
  let r := delimUnframeLoop f.delimiter f.includeDelimiter (f.buffer ++ data)
  (r.1, { f with buffer := r.2 })

/-- DelimiterFramer::isComplete (tcp_utils.cpp lines 208-210). -/
def DelimiterFramer.isComplete (f : DelimiterFramer) (data : List Byte) : Bool :=
  (findDelimiter f.delimiter data 0).isSome

/-- ConnectionState enum from tcp.h, shared by TcpClient and TcpConnection. -/
inductive ConnectionState where
  | Disconnected
  | Connecting
  | Connected
  | Disconnecting
  | Error
deriving DecidableEq

/-- Lifecycle-relevant state of a TcpConnection (tcp_socket.h/tcp_socket.cpp):
its connection state, stop flag, socket-handle validity, whether an
onDisconnected callback is registered, whether shared_from_this still
succeeds (a strong owner remains), and the number of times the disconnected
callback has been invoked (the observable event trace). -/
structure TcpConnection where
  state : ConnectionState
  shouldStop : Bool
  socketValid : Bool
  hasOnDisconnected : Bool
  sharedHandleAlive : Bool
  disconnectedFired : Nat
deriving DecidableEq

/-- TcpConnection::close (tcp_socket.cpp lines 345-394): when the state is not
Disconnected it tears down (Disconnecting, stop flag, close socket), joins the
receive thread, and then — again only when not already Disconnected — moves to
Disconnected and fires the disconnected callback once, provided one is set and
shared_from_this still yields a strong handle. -/
def TcpConnection.close (c : TcpConnection) : TcpConnection :=
  let c1 :=
    if c.state ≠ ConnectionState.Disconnected then
      { c with
        state := ConnectionState.Disconnecting, shouldStop := true,
        socketValid := false }
    else c
  if c1.state ≠ ConnectionState.Disconnected then
    { c1 with
      state := ConnectionState.Disconnected,
      disconnectedFired := c1.disconnectedFired +
        (if c1.hasOnDisconnected && c1.sharedHandleAlive then 1 else 0) }
  else c1

/-- Lifecycle-relevant state of a TcpClient (tcp_client.h/tcp_client.cpp):
connection state, stop flag, the auto-reconnect and heartbeat toggles, the
socket handle validity, whether an onDisconnected callback is registered, and
how many times that callback has been invoked. -/
structure TcpClient where
  state : ConnectionState
  shouldStop : Bool
  autoReconnect : Bool
  heartbeatEnabled : Bool
  socketValid : Bool
  hasOnDisconnected : Bool
  disconnectedFired : Nat
deriving DecidableEq

/-- TcpClient::disconnect (tcp_client.cpp lines 28-63): sets Disconnecting and
the stop flag, disables the reconnect and heartbeat loops, joins every thread,
closes the socket, sets Disconnected, and then unconditionally invokes the
onDisconnected callback whenever one is registered — there is no
was-connected or already-disconnected guard in the source. -/
def TcpClient.disconnect (c : TcpClient) : TcpClient :=
  { c with
    state := ConnectionState.Disconnected, shouldStop := true,
    autoReconnect := false, heartbeatEnabled := false, socketValid := false,
    disconnectedFired := c.disconnectedFired +
      (if c.hasOnDisconnected then 1 else 0) }

/-- Wait predicate of the condition-variable wait in TcpClient::reconnectLoop
(tcp_client.cpp line 418): the wait returns when this predicate is true. -/
def reconnectWaitPredicate (autoReconnect shouldStop : Bool) : Bool :=
  !autoReconnect || shouldStop

/-- One iteration of TcpClient::reconnectLoop after the wait returns
(tcp_client.cpp lines 416-440): with the lock held throughout, if shouldStop
the loop breaks, otherwise a reconnect attempt happens exactly when
autoReconnect is set and the client is not connected.  The value is true when
the iteration reaches the reconnect attempt (the sleep-then-connect branch). -/
def reconnectIterationAttempts (autoReconnect shouldStop connected : Bool) : Bool :=
  reconnectWaitPredicate autoReconnect shouldStop && !shouldStop &&
    (autoReconnect && !connected)

/-- Outcome of the OS-level connect/select sequence inside
TcpClient::connectInternal (tcp_client.cpp lines 302-380): the connect call
fails immediately, the readiness wait times out, the readiness wait reports an
error (select failure, error set, or SO_ERROR), or the connect succeeds. -/
inductive ConnectOutcome where
  | immediateFail
  | timedOut
  | selectFailed
  | success
deriving DecidableEq

/-- TcpClient::connectInternal (tcp_client.cpp lines 270-380), with the
externally determined outcomes as parameters: whether socket creation
succeeds, whether inet_pton accepts the address, and how the connect/readiness
sequence ends.  On every failure after socket creation the function reports
the error, sets the state to Error and returns false — the socket created for
the attempt is not closed on any failure path. -/
def TcpClient.connectInternal (c : TcpClient) (createOk addrParseOk : Bool)
    (outcome : ConnectOutcome) : Bool × TcpClient :=
  let c0 := if c.state = ConnectionState.Connected then c.disconnect else c
  let c1 := { c0 with state := ConnectionState.Connecting }
  if createOk = false then
    (false, { c1 with socketValid := false, state := ConnectionState.Error })
  else
    let c2 := { c1 with socketValid := true }
    if addrParseOk = false then
      (false, { c2 with state := ConnectionState.Error })
    else
      match outcome with
      | ConnectOutcome.immediateFail => (false, { c2 with state := ConnectionState.Error })
      | ConnectOutcome.timedOut => (false, { c2 with state := ConnectionState.Error })
      | ConnectOutcome.selectFailed => (false, { c2 with state := ConnectionState.Error })
      | ConnectOutcome.success => (true, { c2 with state := ConnectionState.Connected })

/-- Lifecycle-relevant state of a TcpServer (tcp_server.h/tcp_server.cpp):
running and stop flags, listening-socket validity, and the registry of active
connections. -/
structure TcpServer where
  running : Bool
  shouldStop : Bool
  socketValid : Bool
  connections : List TcpConnection
deriving DecidableEq

/-- TcpServer::closeAllConnections (tcp_server.cpp lines 156-166): closes
every registered connection and clears the registry. -/
def TcpServer.closeAllConnections (s : TcpServer) : TcpServer :=
  { s with connections := [] }

/-- TcpServer::stop (tcp_server.cpp lines 87-115): returns immediately when
not running; otherwise clears the running flag, sets the stop flag, closes the
listening socket, joins the accept and cleanup threads, then closes every
connection and clears the registry. -/
def TcpServer.stop (s : TcpServer) : TcpServer :=
  if s.running = false then s
  else
    TcpServer.closeAllConnections
      { s with running := false, shouldStop := true, socketValid := false }

/-- TcpServer::bind (tcp_server.cpp lines 18-47), with the externally
determined outcomes as parameters: whether socket creation succeeds, whether
the address is empty/0.0.0.0 or inet_pton accepts it, and whether the OS bind
call succeeds.  A failed inet_pton or a failed OS bind returns false without
closing the socket created for the attempt. -/
def TcpServer.bind (s : TcpServer) (createOk addrParseOk bindOk : Bool) :
    Bool × TcpServer :=
  if s.running then (false, s)
  else if createOk = false then (false, { s with socketValid := false })
  else
    let s1 := { s with socketValid := true }
    if addrParseOk = false then (false, s1)
    else if bindOk = false then (false, s1)
    else (true, s1)

/-- RateLimiter state (tcp_utils.h): refill rate, bucket capacity, current
tokens and the last-refill timestamp.  Time is the steady clock rendered in
milliseconds. -/
structure RateLimiter where
  bytesPerSecond : Nat
  bucketSize : Nat
  availableBytes : Nat
  lastRefill : Nat
deriving DecidableEq

/-- RateLimiter constructor (tcp_utils.cpp lines 322-325): a zero bucketSize
argument falls back to bytesPerSecond, and the bucket starts full. -/
def RateLimiter.init (bps bucket now : Nat) : RateLimiter :=
  { bytesPerSecond := bps,
    bucketSize := if 0 < bucket then bucket else bps,
    availableBytes := if 0 < bucket then bucket else bps,
    lastRefill := now }

/-- RateLimiter::refillBucket (tcp_utils.cpp lines 383-392): when any time has
elapsed since the last refill, adds elapsed-scaled tokens capped at the bucket
size and advances lastRefill.  The C++ computes the token count in a double
and truncates to size_t; for millisecond counts this is
elapsed * bytesPerSecond / 1000 rounded toward zero, rendered here with Nat
division. -/
def RateLimiter.refillBucket (s : RateLimiter) (now : Nat) : RateLimiter :=
  let elapsed := now - s.lastRefill
  if 0 < elapsed then
    { s with
      availableBytes :=
        min s.bucketSize (s.availableBytes + elapsed * s.bytesPerSecond / 1000),
      lastRefill := now }
  else s

/-- RateLimiter::allowBytes (tcp_utils.cpp lines 327-337): refills lazily,
then debits exactly `bytes` and returns true when enough tokens are available,
otherwise returns false leaving the (refilled) token count untouched. -/
def RateLimiter.allowBytes (s : RateLimiter) (bytes now : Nat) : Bool × RateLimiter :=
  let s1 := s.refillBucket now
  if bytes ≤ s1.availableBytes then
    (true, { s1 with availableBytes := s1.availableBytes - bytes })
  else (false, s1)

/-- RateLimiter::getDelay (tcp_utils.cpp lines 339-349): a const member that
reads only the stored token count — it does not call refillBucket and takes no
account of time already elapsed.  The C++ divides the deficit by the rate in a
double, multiplies by 1000 and truncates to whole milliseconds, rendered here
as deficit * 1000 / bytesPerSecond with Nat division. -/
def RateLimiter.getDelay (s : RateLimiter) (bytes : Nat) : Nat :=
  if bytes ≤ s.availableBytes then 0
  else (bytes - s.availableBytes) * 1000 / s.bytesPerSecond

/-- RateLimiter::setRate (tcp_utils.cpp lines 357-360). -/
def RateLimiter.setRate (s : RateLimiter) (bps : Nat) : RateLimiter :=
  { s with bytesPerSecond := bps }

/-- RateLimiter::setBucketSize (tcp_utils.cpp lines 362-365): stores the new
capacity without clamping the currently available tokens. -/
def RateLimiter.setBucketSize (s : RateLimiter) (bucket : Nat) : RateLimiter :=
  { s with bucketSize := bucket }

/-- RateLimiter::getAvailableBytes (tcp_utils.cpp lines 367-370). -/
def RateLimiter.getAvailableBytes (s : RateLimiter) : Nat := s.availableBytes

/-- RateLimiter::reset (tcp_utils.cpp lines 377-381). -/
def RateLimiter.reset (s : RateLimiter) (now : Nat) : RateLimiter :=
  { s with availableBytes := s.bucketSize, lastRefill := now }

/-- One RateLimiter public operation, with the observation time of any
refilling call.  waitForBytes (tcp_utils.cpp lines 351-355) is a loop whose
every iteration calls allowBytes; waitForBytesPoll is one such iteration. -/
inductive RLOp where
  | allowBytes (bytes now : Nat)
  | waitForBytesPoll (bytes now : Nat)
  | getDelay (bytes : Nat)
  | setRate (bps : Nat)
  | setBucketSize (bucket : Nat)
  | reset (now : Nat)
  | getAvailableBytes

/-- State transition of one RateLimiter operation; getDelay and
getAvailableBytes are const members and leave the state unchanged. -/
def RLOp.apply (s : RateLimiter) : RLOp → RateLimiter
  | RLOp.allowBytes b t => (s.allowBytes b t).2
  | RLOp.waitForBytesPoll b t => (s.allowBytes b t).2
  | RLOp.getDelay _ => s
  | RLOp.setRate r => s.setRate r
  | RLOp.setBucketSize b => s.setBucketSize b
  | RLOp.reset t => s.reset t
  | RLOp.getAvailableBytes => s

/-- Runs a sequence of RateLimiter operations from a starting state. -/
def runOps (s : RateLimiter) : List RLOp → RateLimiter
  | [] => s
  | op :: rest => runOps (RLOp.apply s op) rest

/-- Per-operation condition under which the bucket invariant is preserved: a
setBucketSize call must not shrink the capacity below the tokens available at
the moment it executes; every other operation is unconstrained. -/
def RLOp.pre (s : RateLimiter) : RLOp → Bool
  | RLOp.setBucketSize b => decide (s.availableBytes ≤ b)
  | _ => true

/-- Trace condition under which the bucket invariant is preserved: every
operation in the sequence satisfies its per-operation condition at the state
in which it executes. -/
def okTrace (s : RateLimiter) : List RLOp → Bool
  | [] => true
  | op :: rest => RLOp.pre s op && okTrace (RLOp.apply s op) rest

/-- BufferManager::CircularBuffer state (tcp_utils.h): fixed storage of
`capacity` bytes with head/tail indices and the current size. -/
structure CircularBuffer where
  buffer : List Byte
  capacity : Nat
  size : Nat
  head : Nat
  tail : Nat
deriving DecidableEq

/-- CircularBuffer constructor (tcp_utils.cpp lines 442-444). -/
def CircularBuffer.init (capacity : Nat) : CircularBuffer :=
  { buffer := List.replicate capacity 0, capacity := capacity, size := 0,
    head := 0, tail := 0 }

/-- Byte-copy loop of CircularBuffer::write (tcp_utils.cpp lines 454-458):
writes `count` source bytes starting at source index i, advancing tail modulo
capacity and incrementing size. -/
def writeLoop (data : List Byte) (capacity : Nat) :
    Nat → Nat → List Byte → Nat → Nat → List Byte × Nat × Nat
  | _, 0, buf, tail, size => (buf, tail, size)
  | i, count + 1, buf, tail, size =>
      writeLoop data capacity (i + 1) count (buf.set tail (data.getD i 0))
        ((tail + 1) % capacity) (size + 1)

/-- CircularBuffer::write (tcp_utils.cpp lines 446-461): stores
min(length, capacity - size) bytes and returns that count. -/
def CircularBuffer.write (s : CircularBuffer) (data : List Byte) (length : Nat) :
    Nat × CircularBuffer :=
  let availableSpace := s.capacity - s.size
  let writeLength := min length availableSpace
  match writeLoop data s.capacity 0 writeLength s.buffer s.tail s.size with
  | (buf, tail, size) =>
      (writeLength, { s with buffer := buf, tail := tail, size := size })

/-- Byte-copy loop shared by CircularBuffer::read and ::peek (tcp_utils.cpp
lines 469-473 and 485-488): collects `count` bytes from `head` onward, modulo
capacity, returning them with the final head index. -/
def readLoop (buf : List Byte) (capacity : Nat) : Nat → Nat → List Byte × Nat
  | head, 0 => ([], head)
  | head, count + 1 =>
      let b := buf.getD head 0
      let r := readLoop buf capacity ((head + 1) % capacity) count
      (b :: r.1, r.2)

/-- CircularBuffer::read (tcp_utils.cpp lines 463-476): removes and returns
min(length, size) bytes. -/
def CircularBuffer.read (s : CircularBuffer) (length : Nat) :
    List Byte × CircularBuffer :=
  let readLength := min length s.size
  let r := readLoop s.buffer s.capacity s.head readLength
  (r.1, { s with head := r.2, size := s.size - readLength })

/-- CircularBuffer::peek (tcp_utils.cpp lines 478-491): const member copying
min(length, size) bytes from a temporary head, leaving the state unchanged. -/
def CircularBuffer.peek (s : CircularBuffer) (length : Nat) : List Byte :=
  (readLoop s.buffer s.capacity s.head (min length s.size)).1

/-- CircularBuffer::skip (tcp_utils.cpp lines 493-499): advances head by
min(length, size) modulo capacity and debits size by the same amount. -/
def CircularBuffer.skip (s : CircularBuffer) (length : Nat) : CircularBuffer :=
  let skipLength := min length s.size
  { s with head := (s.head + skipLength) % s.capacity, size := s.size - skipLength }

/-- CircularBuffer::clear (tcp_utils.cpp lines 501-506). -/
def CircularBuffer.clear (s : CircularBuffer) : CircularBuffer :=
  { s with size := 0, head := 0, tail := 0 }

/-- Well-formedness of a CircularBuffer: the storage has exactly `capacity`
cells and the size never exceeds the capacity.  Holds of the constructed
state. -/
def CircularBuffer.wf (s : CircularBuffer) : Prop :=
  s.buffer.length = s.capacity ∧ s.size ≤ s.capacity

instance (s : CircularBuffer) : Decidable s.wf := by
  unfold CircularBuffer.wf
  infer_instance

/-- The length field occupies getLengthSize bytes. -/
theorem writeLength_length (lt : LengthType) (be : Bool) (n : Nat) :
    (writeLength lt be n).length = getLengthSize lt := by
  cases lt <;> cases be <;> simp [writeLength, getLengthSize]

/-- Every length-field width is at least one byte. -/
theorem getLengthSize_pos (lt : LengthType) : 1 ≤ getLengthSize lt := by
  cases lt <;> decide

/-- Decoding a freshly encoded length field recovers the length, provided the
length fits the field width. -/
theorem readLength_writeLength (lt : LengthType) (be : Bool) (n : Nat)
    (rest : List Byte) (h : n < 2 ^ (8 * getLengthSize lt)) :
    readLength lt be (writeLength lt be n ++ rest) 0 = n := by
  cases lt <;> cases be <;>
    simp [writeLength, readLength, byteAt, getLengthSize] at h ⊢ <;>
    omega

/-- The unframe loop does nothing on an empty accumulation buffer. -/
theorem unframeLoop_nil (lt : LengthType) (be : Bool) (e : Nat) (r : Bool) :
    unframeLoop lt be [] e r = ([], [], e, r) := by
  have hpos := getLengthSize_pos lt
  rw [unframeLoop.eq_def]
  rw [dif_neg (by simp; omega)]

/-- The unframe loop on exactly one framed message emits the message and
leaves an empty buffer, provided the payload length fits the length field. -/
theorem unframeLoop_exact (lt : LengthType) (be : Bool) (M : List Byte)
    (h : M.length < 2 ^ (8 * getLengthSize lt)) :
    unframeLoop lt be (writeLength lt be M.length ++ M) 0 false =
      ([M], [], 0, false) := by
  have hlen := writeLength_length lt be M.length
  have hdrop : (writeLength lt be M.length ++ M).drop (getLengthSize lt) = M := by
    rw [← hlen]
    exact List.drop_left _ _
  have hread := readLength_writeLength lt be M.length M h
  rw [unframeLoop.eq_def]
  rw [dif_pos (by simp [hlen])]
  rw [dif_neg Bool.false_ne_true]
  simp only [hread, hdrop, List.drop_length, List.take_length, unframeLoop_nil,
    le_refl, dif_pos]

/-- The delimiter scan returns the first matching position: if the delimiter
matches at p, is within bounds, and matches nowhere in [i, p), the scan
started at i finds p. -/
theorem findDelimiterAux_first (d buf : List Byte) (p : Nat) :
    ∀ k i, p - i = k → i ≤ p →
      (∀ j, i ≤ j → j < p → d.isPrefixOf (buf.drop j) = false) →
      d.isPrefixOf (buf.drop p) = true → p + d.length ≤ buf.length →
      findDelimiterAux d buf i = some p := by
  intro k
  induction k with
  | zero =>
      intro i hk hip _ hmatch hbound
      have hip' : i = p := by omega
      subst hip'
      rw [findDelimiterAux.eq_def]
      rw [dif_pos hbound]
      simp [hmatch]
  | succ m ih =>
      intro i hk hip hnone hmatch hbound
      have hlt : i < p := by omega
      rw [findDelimiterAux.eq_def]
      rw [dif_pos (by omega)]
      rw [if_neg (by simp [hnone i (le_refl i) hlt])]
      exact ih (i + 1) (by omega) (by omega)
        (fun j hj hjp => hnone j (by omega) hjp) hmatch hbound

/-- Searching a buffer consisting of a message followed by the delimiter finds
the delimiter exactly at the end of the message, provided the delimiter is
nonempty and does not match at any earlier position. -/
theorem findDelimiter_append (d M : List Byte) (hd : d ≠ [])
    (hno : ∀ j, j < M.length → d.isPrefixOf ((M ++ d).drop j) = false) :
    findDelimiter d (M ++ d) 0 = some M.length := by
  have hdl : 1 ≤ d.length := by
    cases d
    · exact absurd rfl hd
    · simp
  rw [findDelimiter]
  rw [if_neg (by simp [hd])]
  exact findDelimiterAux_first d (M ++ d) M.length M.length 0 (by omega)
    (by omega) (fun j _ hj => hno j hj)
    (by rw [List.drop_left]; exact List.isPrefixOf_iff_prefix.mpr List.prefix_rfl)
    (by simp)

/-- The delimiter scan on an empty buffer finds nothing when the delimiter is
nonempty. -/
theorem findDelimiter_nil (d : List Byte) (hd : d ≠ []) :
    findDelimiter d [] 0 = none := by
  have h0 : 0 < d.length := List.length_pos.mpr hd
  rw [findDelimiter, if_pos (Or.inr (by simpa using h0))]

/-- The delimiter unframe loop does nothing on an empty buffer when the
delimiter is nonempty. -/
theorem delimUnframeLoop_nil (d : List Byte) (inc : Bool) (hd : d ≠ []) :
    delimUnframeLoop d inc [] = ([], []) := by
  rw [delimUnframeLoop.eq_def]
  split
  · rfl
  · rename_i pos hfd
    rw [findDelimiter_nil d hd] at hfd
    exact absurd hfd (by simp)

/-- The delimiter unframe loop on exactly one framed message emits the
message (with the delimiter retained when configured) and leaves an empty
buffer. -/
theorem delimUnframeLoop_exact (d M : List Byte) (inc : Bool) (hd : d ≠ [])
    (hno : ∀ j, j < M.length → d.isPrefixOf ((M ++ d).drop j) = false) :
    delimUnframeLoop d inc (M ++ d) =
      ([M ++ (if inc then d else [])], []) := by
  have hdropall : (M ++ d).drop (M.length + d.length) = [] := by
    rw [show M.length + d.length = (M ++ d).length by simp]
    exact List.drop_length _
  rw [delimUnframeLoop.eq_def]
  split
  · rename_i hfd
    rw [findDelimiter_append d M hd hno] at hfd
    exact absurd hfd (by simp)
  · rename_i pos hfd
    rw [findDelimiter_append d M hd hno] at hfd
    injection hfd with hpos
    subst hpos
    simp only [List.take_left, hdropall, delimUnframeLoop_nil d inc hd]

/-- Claim C1: the claim asserts chunk-invariance of LengthPrefixedFramer's
unframe, but the source's while guard demands getLengthSize buffered bytes
even when a parsed header is awaiting a shorter payload.  Concretely, a fresh
4-byte big-endian framer fed [0,0,0,1,120] at once emits [[120]], while the
same bytes split as [0,0,0,1] then [120] emit nothing in either call, so the
concatenation over chunks differs from the single-call result. -/
theorem lengthPrefixed_chunking_not_invariant :
    (((LengthPrefixedFramer.init LengthType.UInt32 true).unframe
        [0, 0, 0, 1, 120]).1 = [[120]]) ∧
    (((LengthPrefixedFramer.init LengthType.UInt32 true).unframe
        [0, 0, 0, 1]).1 ++
      ((((LengthPrefixedFramer.init LengthType.UInt32 true).unframe
        [0, 0, 0, 1]).2).unframe [120]).1 ≠
      ((LengthPrefixedFramer.init LengthType.UInt32 true).unframe
        [0, 0, 0, 1, 120]).1) := by
  constructor
  · simp [LengthPrefixedFramer.unframe, LengthPrefixedFramer.init, unframeLoop,
      readLength, byteAt, getLengthSize]
  · simp [LengthPrefixedFramer.unframe, LengthPrefixedFramer.init, unframeLoop,
      readLength, byteAt, getLengthSize]

/-- Claim C2 fails as stated: a delimiter framer splits any message that
itself contains the delimiter.  For the delimiter [10] with
includeDelimiter = false, framing [97, 10, 98] and unframing yields
[[97], [98]], not [[97, 10, 98]]. -/
theorem unframe_frame_roundtrip_counterexample :
    (((DelimiterFramer.init [10] false).unframe
        ((DelimiterFramer.init [10] false).frame [97, 10, 98])).1 = [[97], [98]]) ∧
    (((DelimiterFramer.init [10] false).unframe
        ((DelimiterFramer.init [10] false).frame [97, 10, 98])).1 ≠
      [[97, 10, 98]]) := by
  have hf1 : findDelimiter [10] [97, 10, 98, 10] 0 = some 1 := by
    rw [findDelimiter, if_neg (by simp)]
    rw [findDelimiterAux.eq_def]
    rw [dif_pos (by decide), if_neg (by decide)]
    rw [findDelimiterAux.eq_def]
    rw [dif_pos (by decide), if_pos (by decide)]
  have hf2 : findDelimiter [10] [98, 10] 0 = some 1 := by
    rw [findDelimiter, if_neg (by simp)]
    rw [findDelimiterAux.eq_def]
    rw [dif_pos (by decide), if_neg (by decide)]
    rw [findDelimiterAux.eq_def]
    rw [dif_pos (by decide), if_pos (by decide)]
  have hl0 : delimUnframeLoop [10] false [] = ([], []) :=
    delimUnframeLoop_nil [10] false (by decide)
  have hl2 : delimUnframeLoop [10] false [98, 10] = ([[98]], []) := by
    rw [delimUnframeLoop.eq_def]
    split
    · rename_i hfd
      rw [hf2] at hfd
      exact absurd hfd (by simp)
    · rename_i pos hfd
      rw [hf2] at hfd
      injection hfd with hpos
      subst hpos
      simp [hl0]
  have hl1 : delimUnframeLoop [10] false [97, 10, 98, 10] = ([[97], [98]], []) := by
    rw [delimUnframeLoop.eq_def]
    split
    · rename_i hfd
      rw [hf1] at hfd
      exact absurd hfd (by simp)
    · rename_i pos hfd
      rw [hf1] at hfd
      injection hfd with hpos
      subst hpos
      simp [hl2]
  constructor
  · simp [DelimiterFramer.unframe, DelimiterFramer.init, DelimiterFramer.frame, hl1]
  · simp [DelimiterFramer.unframe, DelimiterFramer.init, DelimiterFramer.frame, hl1]

/-- Claim C2 (amended): feeding frame(M) to a fresh matching framer's unframe
yields exactly one message, provided the message fits the framing scheme: for
a length-prefixed framer the payload length must fit the length field, and
for a delimiter framer the delimiter must be nonempty and must not match
anywhere in M ++ delimiter before its final position; the emitted message is
M, except that a delimiter framer with includeDelimiter = true emits
M ++ delimiter. -/
theorem unframe_frame_roundtrip :
    (∀ (lt : LengthType) (be : Bool) (M : List Byte),
      M.length < 2 ^ (8 * getLengthSize lt) →
      ((LengthPrefixedFramer.init lt be).unframe
        ((LengthPrefixedFramer.init lt be).frame M)).1 = [M]) ∧
    (∀ (d : List Byte) (inc : Bool) (M : List Byte), d ≠ [] →
      (∀ j, j < M.length → d.isPrefixOf ((M ++ d).drop j) = false) →
      ((DelimiterFramer.init d inc).unframe
        ((DelimiterFramer.init d inc).frame M)).1 =
        [if inc then M ++ d else M]) := by
  constructor
  · intro lt be M h
    simp [LengthPrefixedFramer.unframe, LengthPrefixedFramer.init,
      LengthPrefixedFramer.frame, unframeLoop_exact lt be M h]
  · intro d inc M hd hno
    simp [DelimiterFramer.unframe, DelimiterFramer.init, DelimiterFramer.frame,
      delimUnframeLoop_exact d M inc hd hno]
    cases inc <;> simp

/-- Witness for the round-trip theorem at concrete inputs: a one-byte-length
framer on the message [5, 6], and a CRLF delimiter framer on the message
[104, 105]. -/
theorem unframe_frame_roundtrip_witness :
    (((LengthPrefixedFramer.init LengthType.UInt8 true).unframe
        ((LengthPrefixedFramer.init LengthType.UInt8 true).frame [5, 6])).1 =
      [[5, 6]]) ∧
    (((DelimiterFramer.init [13, 10] false).unframe
        ((DelimiterFramer.init [13, 10] false).frame [104, 105])).1 =
      [[104, 105]]) := by
  constructor
  · exact unframe_frame_roundtrip.1 LengthType.UInt8 true [5, 6] (by decide)
  · have h := unframe_frame_roundtrip.2 [13, 10] false [104, 105] (by decide)
      (by decide)
    simpa using h

/-- Claim C10: a DelimiterFramer constructed with an empty delimiter frames
every message unchanged, never emits a message from unframe, accumulates all
fed bytes in its internal buffer, and reports isComplete = false on every
input. -/
theorem emptyDelimiter_never_emits (inc : Bool) (st data M : List Byte) :
    (DelimiterFramer.frame { delimiter := [], includeDelimiter := inc, buffer := st } M
      = M) ∧
    ((DelimiterFramer.unframe { delimiter := [], includeDelimiter := inc, buffer := st }
      data).1 = []) ∧
    ((DelimiterFramer.unframe { delimiter := [], includeDelimiter := inc, buffer := st }
      data).2.buffer = st ++ data) ∧
    (DelimiterFramer.isComplete { delimiter := [], includeDelimiter := inc, buffer := st }
      data = false) := by
  have hloop : delimUnframeLoop [] inc (st ++ data) = ([], st ++ data) := by
    rw [delimUnframeLoop.eq_def]
    split
    · rfl
    · rename_i pos hfd
      simp [findDelimiter] at hfd
  refine ⟨by simp [DelimiterFramer.frame], ?_, ?_,
    by simp [DelimiterFramer.isComplete, findDelimiter]⟩
  · simp [DelimiterFramer.unframe, hloop]
  · simp [DelimiterFramer.unframe, hloop]

/-- Claim C3: TcpConnection::close and TcpServer::stop are guarded and
idempotent, but TcpClient::disconnect invokes the onDisconnected callback
unconditionally on every call: a freshly constructed client with a registered
callback that calls disconnect twice sees the callback fire twice, while a
connected TcpConnection closed twice fires it exactly once and a second
TcpServer::stop is a no-op. -/
theorem client_disconnect_callback_not_once :
    (TcpClient.disconnect (TcpClient.disconnect
      { state := ConnectionState.Disconnected, shouldStop := false,
        autoReconnect := false, heartbeatEnabled := false, socketValid := false,
        hasOnDisconnected := true, disconnectedFired := 0 })).disconnectedFired = 2 ∧
    (TcpConnection.close (TcpConnection.close
      { state := ConnectionState.Connected, shouldStop := false, socketValid := true,
        hasOnDisconnected := true, sharedHandleAlive := true,
        disconnectedFired := 0 })).disconnectedFired = 1 ∧
    (TcpServer.stop (TcpServer.stop
      { running := true, shouldStop := false, socketValid := true,
        connections := [] }) =
      TcpServer.stop
        { running := true, shouldStop := false, socketValid := true,
          connections := [] }) := by
  decide

/-- Claim C4: the wait predicate of TcpClient::reconnectLoop is
!autoReconnect || shouldStop, the inverse of the specified
enabled-and-not-connected condition.  Consequently the loop sleeps forever
while auto-reconnect is enabled and the client keeps running (the predicate
is false exactly then), and whenever the wait does pass without a stop
request, autoReconnect is false, so the guarded reconnect attempt is
unreachable: no iteration ever reaches the sleep-and-connect branch. -/
theorem reconnectLoop_never_attempts :
    (∀ autoReconnect shouldStop connected : Bool,
      reconnectIterationAttempts autoReconnect shouldStop connected = false) ∧
    reconnectWaitPredicate true false = false := by
  decide

/-- Claim C5 fails as stated: a failed TcpClient connect attempt (immediate
connect refusal with a successfully created socket) and a failed OS-level
bind in TcpServer::bind both return false while leaving the socket handle
valid — the created socket is not closed before the call returns. -/
theorem failed_attempt_keeps_socket_counterexample :
    ((TcpClient.connectInternal
      { state := ConnectionState.Disconnected, shouldStop := false,
        autoReconnect := false, heartbeatEnabled := false, socketValid := false,
        hasOnDisconnected := false, disconnectedFired := 0 }
      true true ConnectOutcome.immediateFail).1 = false) ∧
    ((TcpClient.connectInternal
      { state := ConnectionState.Disconnected, shouldStop := false,
        autoReconnect := false, heartbeatEnabled := false, socketValid := false,
        hasOnDisconnected := false, disconnectedFired := 0 }
      true true ConnectOutcome.immediateFail).2.socketValid = true) ∧
    ((TcpServer.bind
      { running := false, shouldStop := false, socketValid := false,
        connections := [] } true true false).1 = false) ∧
    ((TcpServer.bind
      { running := false, shouldStop := false, socketValid := false,
        connections := [] } true true false).2.socketValid = true) := by
  decide

/-- Claim C5 (amended): bind and connect failures are reported as boolean
false — the result is true exactly when every step succeeds — but no teardown
happens: whenever socket creation succeeded, the socket handle is still valid
when the call returns, on failure paths included. -/
theorem failed_attempts_return_false_keep_socket (c : TcpClient) (s : TcpServer)
    (addrOk bindOk : Bool) (outcome : ConnectOutcome) :
    ((TcpClient.connectInternal c true addrOk outcome).2.socketValid = true) ∧
    ((TcpClient.connectInternal c true addrOk outcome).1 =
      (addrOk && decide (outcome = ConnectOutcome.success))) ∧
    ((TcpServer.bind { s with running := false } true addrOk bindOk).2.socketValid
      = true) ∧
    ((TcpServer.bind { s with running := false } true addrOk bindOk).1 =
      (addrOk && bindOk)) := by
  cases addrOk <;> cases bindOk <;> cases outcome <;>
    simp [TcpClient.connectInternal, TcpClient.disconnect, TcpServer.bind]

/-- Refilling never lifts the token count above the bucket size, and changes
neither the bucket size nor the rate. -/
theorem refillBucket_le (s : RateLimiter) (now : Nat)
    (hs : s.availableBytes ≤ s.bucketSize) :
    (s.refillBucket now).availableBytes ≤ (s.refillBucket now).bucketSize ∧
    (s.refillBucket now).bucketSize = s.bucketSize := by
  simp only [RateLimiter.refillBucket]
  split
  · exact ⟨Nat.min_le_left _ _, rfl⟩
  · exact ⟨hs, rfl⟩

/-- Every single RateLimiter operation preserves the bucket invariant,
provided a setBucketSize operation does not shrink the capacity below the
tokens available at that moment. -/
theorem RLOp_apply_preserves (s : RateLimiter) (op : RLOp)
    (hs : s.availableBytes ≤ s.bucketSize) (hop : RLOp.pre s op = true) :
    (RLOp.apply s op).availableBytes ≤ (RLOp.apply s op).bucketSize := by
  have hallow : ∀ b t, ((s.allowBytes b t).2).availableBytes ≤
      ((s.allowBytes b t).2).bucketSize := by
    intro b t
    have h := refillBucket_le s t hs
    simp only [RateLimiter.allowBytes]
    split
    · simpa using Nat.le_trans (Nat.sub_le _ _) h.1
    · exact h.1
  cases op with
  | allowBytes b t => exact hallow b t
  | waitForBytesPoll b t => exact hallow b t
  | getDelay b => exact hs
  | setRate r => exact hs
  | setBucketSize b =>
      simp only [RLOp.pre, decide_eq_true_eq] at hop
      exact hop
  | reset t => exact Nat.le_refl _
  | getAvailableBytes => exact hs

/-- Claim C6 fails as stated: setBucketSize stores the new capacity without
clamping the available tokens, so shrinking the bucket of a full limiter
leaves more tokens available than the bucket size at the next observation
point. -/
theorem setBucketSize_breaks_invariant_counterexample :
    ((runOps (RateLimiter.init 100 100 0) [RLOp.setBucketSize 10]).bucketSize = 10) ∧
    ((runOps (RateLimiter.init 100 100 0)
      [RLOp.setBucketSize 10]).availableBytes = 100) ∧
    ¬((runOps (RateLimiter.init 100 100 0)
        [RLOp.setBucketSize 10]).availableBytes ≤
      (runOps (RateLimiter.init 100 100 0) [RLOp.setBucketSize 10]).bucketSize) := by
  decide

/-- Claim C6 (amended): along every sequence of RateLimiter operations in
which no setBucketSize call shrinks the capacity below the tokens then
available — in particular every sequence without setBucketSize — the tokens
observed after any prefix stay within [0, bucketSize].  The lower bound holds
by construction: the counter is a Nat and the only debit is guarded by a
sufficiency test. -/
theorem rateLimiter_available_within_bucket (s : RateLimiter) (ops : List RLOp)
    (hs : s.availableBytes ≤ s.bucketSize) (hok : okTrace s ops = true) (n : Nat) :
    (runOps s (ops.take n)).availableBytes ≤
      (runOps s (ops.take n)).bucketSize := by
  induction ops generalizing s n with
  | nil => simpa [runOps] using hs
  | cons op rest ih =>
      cases n with
      | zero => simpa [runOps] using hs
      | succ m =>
          simp only [List.take_succ_cons, runOps]
          rw [okTrace, Bool.and_eq_true] at hok
          exact ih (RLOp.apply s op) (RLOp_apply_preserves s op hs hok.1) hok.2 m

/-- Witness for the bucket-invariant theorem on a concrete trace that debits,
grows the bucket and resets. -/
theorem rateLimiter_available_within_bucket_witness :
    (runOps (RateLimiter.init 100 100 0)
      ([RLOp.allowBytes 30 0, RLOp.setBucketSize 200, RLOp.reset 5,
        RLOp.allowBytes 500 1000, RLOp.getDelay 7].take 3)).availableBytes ≤
    (runOps (RateLimiter.init 100 100 0)
      ([RLOp.allowBytes 30 0, RLOp.setBucketSize 200, RLOp.reset 5,
        RLOp.allowBytes 500 1000, RLOp.getDelay 7].take 3)).bucketSize :=
  rateLimiter_available_within_bucket (RateLimiter.init 100 100 0) _
    (by decide) (by decide) 3

/-- Claim C7 fails as stated only at states where the documented bucket
invariant is already broken: after shrinking a full bucket from 100 to 10,
allowBytes 50 with no elapsed time succeeds although the claimed refill
formula min(bucketSize, tokens + elapsed * rate) yields just 10 tokens. -/
theorem allowBytes_formula_counterexample :
    (((runOps (RateLimiter.init 100 100 0)
        [RLOp.setBucketSize 10]).allowBytes 50 0).1 = true) ∧
    ¬(50 ≤ min
        (runOps (RateLimiter.init 100 100 0) [RLOp.setBucketSize 10]).bucketSize
        ((runOps (RateLimiter.init 100 100 0)
            [RLOp.setBucketSize 10]).availableBytes +
          (0 - (runOps (RateLimiter.init 100 100 0)
            [RLOp.setBucketSize 10]).lastRefill) *
            (runOps (RateLimiter.init 100 100 0)
              [RLOp.setBucketSize 10]).bytesPerSecond / 1000)) := by
  decide

/-- Claim C7 (amended): at every state satisfying the documented bucket
invariant, allowBytes first refills to
min(bucketSize, tokens + elapsed_ms * rate / 1000), succeeds exactly when the
refilled count covers the request, debits exactly the request on success and
leaves the refilled count untouched on failure; rate and capacity are
unchanged.  In particular a fresh limiter with rate 100 and bucket 100
accepts allowBytes 100 once, and an immediate allowBytes 1 fails without
debiting. -/
theorem allowBytes_refills_then_debits (s : RateLimiter) (n now : Nat)
    (hs : s.availableBytes ≤ s.bucketSize) :
    ((s.allowBytes n now).1 =
      decide (n ≤ min s.bucketSize
        (s.availableBytes + (now - s.lastRefill) * s.bytesPerSecond / 1000))) ∧
    ((s.allowBytes n now).2.availableBytes =
      if n ≤ min s.bucketSize
          (s.availableBytes + (now - s.lastRefill) * s.bytesPerSecond / 1000) then
        min s.bucketSize
          (s.availableBytes + (now - s.lastRefill) * s.bytesPerSecond / 1000) - n
      else
        min s.bucketSize
          (s.availableBytes + (now - s.lastRefill) * s.bytesPerSecond / 1000)) ∧
    ((s.allowBytes n now).2.bucketSize = s.bucketSize) ∧
    ((s.allowBytes n now).2.bytesPerSecond = s.bytesPerSecond) ∧
    ((((RateLimiter.init 100 100 0).allowBytes 100 0).1 = true) ∧
      ((((RateLimiter.init 100 100 0).allowBytes 100 0).2.allowBytes 1 0).1
        = false) ∧
      ((((RateLimiter.init 100 100 0).allowBytes 100 0).2.allowBytes 1 0).2.availableBytes
        = ((RateLimiter.init 100 100 0).allowBytes 100 0).2.availableBytes)) := by
  have hrefill : (s.refillBucket now).availableBytes =
      min s.bucketSize
        (s.availableBytes + (now - s.lastRefill) * s.bytesPerSecond / 1000) ∧
      (s.refillBucket now).bucketSize = s.bucketSize ∧
      (s.refillBucket now).bytesPerSecond = s.bytesPerSecond := by
    simp only [RateLimiter.refillBucket]
    split
    · exact ⟨rfl, rfl, rfl⟩
    · rename_i hel
      have h0 : now - s.lastRefill = 0 := by omega
      simp [h0, Nat.min_eq_right hs]
  refine ⟨?_, ?_, ?_, ?_, by decide, by decide, by decide⟩
  · simp only [RateLimiter.allowBytes, hrefill.1]
    split <;> rename_i h <;> simp [h]
  · simp only [RateLimiter.allowBytes]
    split <;> rename_i h <;> rw [hrefill.1] at h <;> simp [h, hrefill.1]
  · simp only [RateLimiter.allowBytes]
    split <;> simp [hrefill.2.1]
  · simp only [RateLimiter.allowBytes]
    split <;> simp [hrefill.2.2]

/-- Witness for the allowBytes characterisation on a fresh limiter with rate
100 and a full bucket of 100 at time 0. -/
theorem allowBytes_refills_then_debits_witness :
    ((RateLimiter.init 100 100 0).allowBytes 100 0).1 = true := by
  have h := allowBytes_refills_then_debits (RateLimiter.init 100 100 0) 100 0
    (by decide)
  simpa [RateLimiter.init] using h.1

/-- Claim C8 fails as stated: getDelay reads only the stored token count and
ignores time already elapsed since the last refill.  With rate 100, an empty
bucket and 500 ms elapsed, the lazy-refill model already holds 50 tokens — so
the wait until 50 tokens are available is zero — yet getDelay returns
500 ms. -/
theorem getDelay_ignores_elapsed_counterexample :
    (50 ≤ (RateLimiter.refillBucket
      { bytesPerSecond := 100, bucketSize := 100, availableBytes := 0,
        lastRefill := 0 } 500).availableBytes) ∧
    (RateLimiter.getDelay
      { bytesPerSecond := 100, bucketSize := 100, availableBytes := 0,
        lastRefill := 0 } 50 = 500) := by
  decide

/-- Claim C8 (amended): getDelay mutates no state and computes the wait
purely from the stored token count, ignoring elapsed time: zero when the
stored tokens already cover the request, otherwise the deficit divided by the
rate, truncated to milliseconds. -/
theorem getDelay_stateless_stale (s : RateLimiter) (n : Nat) :
    (RLOp.apply s (RLOp.getDelay n) = s) ∧
    (s.getDelay n =
      if n ≤ s.availableBytes then 0
      else (n - s.availableBytes) * 1000 / s.bytesPerSecond) :=
  ⟨rfl, rfl⟩

/-- The write copy loop preserves the storage length and increments size once
per copied byte. -/
theorem writeLoop_spec (data : List Byte) (capacity : Nat) :
    ∀ count i buf tail size,
      ((writeLoop data capacity i count buf tail size).1.length = buf.length) ∧
      ((writeLoop data capacity i count buf tail size).2.2 = size + count) := by
  intro count
  induction count with
  | zero =>
      intro i buf tail size
      simp [writeLoop]
  | succ m ih =>
      intro i buf tail size
      have h := ih (i + 1) (buf.set tail (data.getD i 0)) ((tail + 1) % capacity)
        (size + 1)
      simp only [writeLoop]
      exact ⟨by rw [h.1]; simp, by rw [h.2]; omega⟩

/-- The read/peek copy loop returns exactly as many bytes as requested. -/
theorem readLoop_length (buf : List Byte) (capacity : Nat) :
    ∀ count head, (readLoop buf capacity head count).1.length = count := by
  intro count
  induction count with
  | zero =>
      intro head
      simp [readLoop]
  | succ m ih =>
      intro head
      simp [readLoop, ih]

/-- Write returns the number of bytes actually stored. -/
theorem CircularBuffer.write_fst (s : CircularBuffer) (data : List Byte) (n : Nat) :
    (s.write data n).1 = min n (s.capacity - s.size) := by
  rcases hwl : writeLoop data s.capacity 0 (min n (s.capacity - s.size))
      s.buffer s.tail s.size with ⟨wbuf, wtail, wsize⟩
  simp [CircularBuffer.write, hwl]

/-- Write grows the size by exactly the number of bytes stored. -/
theorem CircularBuffer.write_size (s : CircularBuffer) (data : List Byte) (n : Nat) :
    (s.write data n).2.size = s.size + min n (s.capacity - s.size) := by
  have hw := writeLoop_spec data s.capacity (min n (s.capacity - s.size)) 0
    s.buffer s.tail s.size
  rcases hwl : writeLoop data s.capacity 0 (min n (s.capacity - s.size))
      s.buffer s.tail s.size with ⟨wbuf, wtail, wsize⟩
  rw [hwl] at hw
  have hw2 : wsize = s.size + min n (s.capacity - s.size) := hw.2
  simp [CircularBuffer.write, hwl, hw2]

/-- Write leaves the storage length unchanged. -/
theorem CircularBuffer.write_storage (s : CircularBuffer) (data : List Byte) (n : Nat) :
    (s.write data n).2.buffer.length = s.buffer.length := by
  have hw := writeLoop_spec data s.capacity (min n (s.capacity - s.size)) 0
    s.buffer s.tail s.size
  rcases hwl : writeLoop data s.capacity 0 (min n (s.capacity - s.size))
      s.buffer s.tail s.size with ⟨wbuf, wtail, wsize⟩
  rw [hwl] at hw
  have hw1 : wbuf.length = s.buffer.length := hw.1
  simp [CircularBuffer.write, hwl, hw1]

/-- Write leaves the capacity unchanged. -/
theorem CircularBuffer.write_capacity (s : CircularBuffer) (data : List Byte) (n : Nat) :
    (s.write data n).2.capacity = s.capacity := by
  rcases hwl : writeLoop data s.capacity 0 (min n (s.capacity - s.size))
      s.buffer s.tail s.size with ⟨wbuf, wtail, wsize⟩
  simp [CircularBuffer.write, hwl]

/-- Claim C9: on every well-formed CircularBuffer state, write stores exactly
min(n, capacity - size) bytes and returns that count, read removes and
returns exactly min(n, size) bytes, peek copies min(n, size) bytes without
touching the state, skip consumes min(n, size) bytes, and every operation
leaves the size within [0, capacity] (the lower bound holding by construction
on Nat, every debit being capped at size). -/
theorem circularBuffer_ops (s : CircularBuffer) (data : List Byte) (n : Nat)
    (hwf : s.wf) :
    ((s.write data n).1 = min n (s.capacity - s.size)) ∧
    ((s.write data n).2.size = s.size + min n (s.capacity - s.size)) ∧
    ((s.write data n).2.wf) ∧
    ((s.read n).1.length = min n s.size) ∧
    ((s.read n).2.size = s.size - min n s.size) ∧
    ((s.read n).2.wf) ∧
    ((s.peek n).length = min n s.size) ∧
    ((s.skip n).size = s.size - min n s.size) ∧
    ((s.skip n).wf) ∧
    (s.clear.size = 0) ∧
    (s.clear.wf) := by
  obtain ⟨hbuf, hsize⟩ := hwf
  have hr := readLoop_length s.buffer s.capacity (min n s.size) s.head
  have hmin : min n (s.capacity - s.size) ≤ s.capacity - s.size :=
    Nat.min_le_right _ _
  refine ⟨CircularBuffer.write_fst s data n, CircularBuffer.write_size s data n,
    ?_, ?_, ?_, ?_, ?_, ?_, ?_, ?_, ?_⟩
  · refine ⟨?_, ?_⟩
    · rw [CircularBuffer.write_storage, CircularBuffer.write_capacity, hbuf]
    · rw [CircularBuffer.write_size, CircularBuffer.write_capacity]
      omega
  · simpa [CircularBuffer.read] using hr
  · simp [CircularBuffer.read]
  · refine ⟨?_, ?_⟩ <;> simp [CircularBuffer.read, CircularBuffer.wf]
    · exact hbuf
    · omega
  · simpa [CircularBuffer.peek] using hr
  · simp [CircularBuffer.skip]
  · refine ⟨?_, ?_⟩ <;> simp [CircularBuffer.skip, CircularBuffer.wf]
    · exact hbuf
    · omega
  · simp [CircularBuffer.clear]
  · refine ⟨?_, ?_⟩ <;> simp [CircularBuffer.clear, CircularBuffer.wf]
    · exact hbuf

/-- Witness for the CircularBuffer theorem on a capacity-4 buffer receiving
three bytes. -/
theorem circularBuffer_ops_witness :
    (((CircularBuffer.init 4).write [1, 2, 3] 3).1 = 3) ∧
    (((CircularBuffer.init 4).write [1, 2, 3] 3).2.size = 3) := by
  have h := circularBuffer_ops (CircularBuffer.init 4) [1, 2, 3] 3 (by decide)
  exact ⟨by simpa [CircularBuffer.init] using h.1,
    by simpa [CircularBuffer.init] using h.2.1⟩

end Tcp
